import Mathlib

/-!
Verification of the XBMC RetroPlayer game-client core (rewind engine,
load-strategy resolver, environment callback, A/V rate alignment).

The definitions below are shallow embeddings of:
  * `CGameClient::AppendStateDelta` / `CGameClient::RewindFrames`
    (xbmc/games/GameClient.cpp, the XOR-delta rewind ring),
  * the strategy-resolution loop of `CGameClient::OpenFile`,
  * `CGameClient::SetExtensions`, `CGameClient::IsExtensionValid`,
    `CGameClient::CStrategyUseParentZip::CanLoad`,
  * the rewind initialisation in `CGameClient::OpenFile`,
  * the sample-rate / frame-rate alignment of `CRetroPlayer::Process`,
  * `CGameClient::EnvironmentCallback`.

Machine integers: the save state is a `std::vector<uint32_t>`; XOR of two
32-bit words never overflows, so words are modelled as `Nat` with `Nat.xor`
(exact on values below 2^32). Sample rates and frame rates are C `double`s
carrying decimal values; they are modelled as `ℚ`, with C's float-to-integer
conversion modelled as truncation toward zero.
-/

/-- One XOR update `m_lastSaveState[i] ^= v` (`List.set` out of range is the
identity; in the source the indices always come from a scan over a buffer of
the same size, hence are in range). -/
def xorAt (s : List Nat) (i v : Nat) : List Nat :=
  s.set i ((s.getD i 0) ^^^ v)

/-- Applying one delta frame: the inner `for` loop of
`CGameClient::RewindFrames`, which XORs every recorded pair into
`m_lastSaveState` in order. -/
def applyDelta (s : List Nat) (delta : List (Nat × Nat)) : List Nat :=
  delta.foldl (fun acc p => xorAt acc p.1 p.2) s

/-- Applying a sequence of delta frames in the order given. -/
def applyDeltas (s : List Nat) (deltas : List (List (Nat × Nat))) : List Nat :=
  deltas.foldl applyDelta s

/-- Proof-side helper: the total XOR contribution of a delta at word index
`i` (the XOR of all recorded values whose index is `i`). -/
def deltaXor (delta : List (Nat × Nat)) (i : Nat) : Nat :=
  delta.foldr (fun p acc => if p.1 = i then p.2 ^^^ acc else acc) 0

/-- The delta-building scan of `CGameClient::AppendStateDelta`, with the
running word index `i` of the `for` loop made explicit: record
`(i, m_lastSaveState[i] ^ stateBuffer[i])` for every word whose XOR is
non-zero.  In the source both buffers always have the same size; walking the
two lists in lockstep realises the common index range. -/
def deltaScanFrom (i : Nat) : List Nat → List Nat → List (Nat × Nat)
  | a :: as, b :: bs =>
    if a ^^^ b ≠ 0 then (i, a ^^^ b) :: deltaScanFrom (i + 1) as bs
    else deltaScanFrom (i + 1) as bs
  | _, _ => []

/-- The whole scan, starting at word index 0. -/
def deltaScan (lastState stateBuffer : List Nat) : List (Nat × Nat) :=
  deltaScanFrom 0 lastState stateBuffer

/-- The eviction loop of `CGameClient::AppendStateDelta`:
`while (m_rewindBuffer.size() > m_rewindMaxFrames) m_rewindBuffer.pop_front();`
The ring is a `std::deque` listed front (oldest) first. -/
def evict (ring : List (List (Nat × Nat))) (maxFrames : Nat) :
    List (List (Nat × Nat)) :=
  if ring.length > maxFrames then evict ring.tail maxFrames else ring
termination_by ring.length
decreasing_by simp [List.length_tail]; omega

/-- The rewind-relevant state of `CGameClient`: `m_rewindSupported`,
`m_rewindMaxFrames`, `m_serializeSize`, `m_lastSaveState` (32-bit words) and
`m_rewindBuffer` (deque of delta frames, front = oldest). -/
structure GameClientState where
  rewindSupported : Bool
  rewindMaxFrames : Nat
  serializeSize : Nat
  lastSaveState : List Nat
  rewindBuffer : List (List (Nat × Nat))
deriving DecidableEq

/-- `CGameClient::AppendStateDelta`.  The argument models the outcome of
`retro_serialize` into a scratch buffer of `m_lastSaveState.size()` words:
`none` when the core returns false (the capture is then skipped), otherwise
the serialized words.  On success the delta against the previous snapshot is
pushed on the back of the ring, `m_lastSaveState` is overwritten, and the
front of the ring is evicted down to `m_rewindMaxFrames`. -/
def AppendStateDelta (st : GameClientState) (serialized : Option (List Nat)) :
    GameClientState :=
  if st.rewindSupported = false then st
  else
    match serialized with
    | none => st
    | some stateBuffer =>
      { st with
          lastSaveState := stateBuffer
          rewindBuffer :=
            evict (st.rewindBuffer ++ [deltaScan st.lastSaveState stateBuffer])
              st.rewindMaxFrames }

/-- The `while (frames > 0 && m_rewindBuffer.size() > 0)` loop of
`CGameClient::RewindFrames`: pop the back of the ring, XOR the popped delta
into `m_lastSaveState`, count the frame. Returns
`(frames_rewound, m_lastSaveState, m_rewindBuffer)`. -/
def rewindLoop (frames : Int) (lastState : List Nat)
    (ring : List (List (Nat × Nat))) (framesRewound : Int) :
    Int × List Nat × List (List (Nat × Nat)) :=
  if h : 0 < frames ∧ 0 < ring.length then
    rewindLoop (frames - 1) (applyDelta lastState (ring.getLast?.getD []))
      ring.dropLast (framesRewound + 1)
  else
    (framesRewound, lastState, ring)
termination_by ring.length
decreasing_by simp [List.length_dropLast]; omega

/-- Result of `CGameClient::RewindFrames`: the returned count, the mutated
state, and the buffer handed to `retro_unserialize` (`none` when
`retro_unserialize` was not invoked). -/
structure RewindResult where
  framesRewound : Int
  state : GameClientState
  unserializeArg : Option (List Nat)
deriving DecidableEq

/-- `CGameClient::RewindFrames(int frames)`: run the pop-and-XOR loop, then
`if (frames_rewound) retro_unserialize(m_lastSaveState, m_serializeSize)`. -/
def RewindFrames (st : GameClientState) (frames : Int) : RewindResult :=
  let r := rewindLoop frames st.lastSaveState st.rewindBuffer 0
  { framesRewound := r.1
    state := { st with lastSaveState := r.2.1, rewindBuffer := r.2.2 }
    unserializeArg := if r.1 ≠ 0 then some r.2.1 else none }

/-- An observable rewind-engine operation: one capture (with the outcome of
`retro_serialize`) or one `RewindFrames` call. -/
inductive GCOp where
  | append (serialized : Option (List Nat))
  | rewind (frames : Int)

/-- One operation applied to the game-client state. -/
def stepOp (st : GameClientState) : GCOp → GameClientState
  | GCOp.append serialized => AppendStateDelta st serialized
  | GCOp.rewind n => (RewindFrames st n).state

/-- A whole trace of operations. -/
def runOps (st : GameClientState) (ops : List GCOp) : GameClientState :=
  ops.foldl stepOp st

/-- The four load strategies of `CGameClient::OpenFile`. -/
inductive StrategyKind where
  | useHD
  | useParentZip
  | useVFS
  | enterZip
deriving DecidableEq

/-- The strategy array of `CGameClient::OpenFile`:
`IRetroStrategy *strategies[] = {&s1, &s2, &s3, &s4};` followed by
`std::swap(strategies[0], strategies[2]); std::swap(strategies[1], strategies[3]);`
when `g_advancedSettings.m_bPreferVFS` is set. -/
def openFileStrategies (preferVfs : Bool) : List StrategyKind :=
  let strategies := [StrategyKind.useHD, StrategyKind.useParentZip,
                     StrategyKind.useVFS, StrategyKind.enterZip]
  if preferVfs then
    let swap02 := (strategies.set 0 (strategies.getD 2 StrategyKind.useHD)).set 2
      (strategies.getD 0 StrategyKind.useHD)
    (swap02.set 1 (swap02.getD 3 StrategyKind.useHD)).set 3
      (swap02.getD 1 StrategyKind.useHD)
  else strategies

/-- The resolution loop of `CGameClient::OpenFile`: for each strategy in
order, if `CanLoad` passes and `GetGameInfo` produces a game presentation,
hand the presentation to `retro_load_game`; stop on the first success.
Returns the overall success flag together with the list of presentations
handed to `retro_load_game`, in order. -/
def tryStrategies {γ : Type} (canLoad : StrategyKind → Bool)
    (getGameInfo : StrategyKind → Option γ) (loadGame : γ → Bool) :
    List StrategyKind → Bool × List γ
  | [] => (false, [])
  | s :: rest =>
    if canLoad s then
      match getGameInfo s with
      | some info =>
        if loadGame info then (true, [info])
        else
          let r := tryStrategies canLoad getGameInfo loadGame rest
          (r.1, info :: r.2)
      | none => tryStrategies canLoad getGameInfo loadGame rest
    else tryStrategies canLoad getGameInfo loadGame rest

/-- Proof-side helper: the prefix of a list up to and including the first
element satisfying `p` (all of it when no element does). -/
def takeThroughFirst {γ : Type} (p : γ → Bool) : List γ → List γ
  | [] => []
  | x :: xs => if p x then [x] else x :: takeThroughFirst p xs

/-- Proof-side helper: the presentations of the applicable strategies, in
order — those whose `CanLoad` test passes and whose `GetGameInfo` produces a
presentation. -/
def applicableInfos {γ : Type} (canLoad : StrategyKind → Bool)
    (getGameInfo : StrategyKind → Option γ) : List StrategyKind → List γ
  | [] => []
  | s :: rest =>
    if canLoad s then
      match getGameInfo s with
      | some info => info :: applicableInfos canLoad getGameInfo rest
      | none => applicableInfos canLoad getGameInfo rest
    else applicableInfos canLoad getGameInfo rest

/-- `CStdString::ToLower`, which lowercases the string character by
character. -/
def strToLower (s : String) : String :=
  String.mk (s.data.map Char.toLower)

/-- `CGameClient::SetExtensions`: split the pipe-separated list (given here
already split), skip empty entries, skip `zip` (case-insensitive, which is
what `CStdString::Equals` does) unless `g_advancedSettings.m_bAllowZip`,
lowercase, prepend a dot, de-duplicate. -/
def SetExtensions (extensionList : List String) (allowZip : Bool) :
    List String :=
  extensionList.foldl
    (fun acc e =>
      if e.isEmpty then acc
      else if strToLower e = "zip" && !allowZip then acc
      else
        let e2 := "." ++ strToLower e
        if e2 ∈ acc then acc else acc ++ [e2])
    []

/-- `CGameClient::IsExtensionValid`: an empty `m_validExtensions` matches
everything, otherwise the lowercased query must occur in the list. -/
def IsExtensionValid (validExtensions : List String) (ext : String) : Bool :=
  validExtensions.isEmpty || decide (strToLower ext ∈ validExtensions)

/-- The file-side facts consulted by `CStrategyUseParentZip::CanLoad`:
whether `URIUtils::IsInZIP(path)` holds, and the file name, protocol and
host name of `CURL(URIUtils::GetParentPath(path))`. -/
structure ZipFileInfo where
  isInZip : Bool
  parentFileName : String
  parentProtocol : String
  parentHostName : String

/-- `CGameClient::CStrategyUseParentZip::CanLoad`: the file must be inside a
zip, `IsExtensionValid("zip")` must pass (note: the undotted string is looked
up), the parent URL's file name must be empty (archive root) and its protocol
empty (local archive).  On success the chosen path is the parent URL's host
name (the archive path) and the VFS is not used. -/
def CanLoadParentZip (validExtensions : List String) (file : ZipFileInfo) :
    Option String :=
  if !file.isInZip then none
  else if !(IsExtensionValid validExtensions "zip") then none
  else if !file.parentFileName.isEmpty then none
  else if !file.parentProtocol.isEmpty then none
  else some file.parentHostName

/-- The rewind-engine fields set by `CGameClient::OpenFile` when
`retro_serialize_size()` is non-zero. -/
structure RewindInit where
  rewindSupported : Bool
  rewindMaxFrames : Nat
  serializeSize : Nat
  lastSaveStateWords : Nat
deriving DecidableEq

/-- C float-to-unsigned/int conversion for a rational value: truncation
toward zero. -/
def cTrunc (q : ℚ) : Int :=
  if q < 0 then -(⌊-q⌋) else ⌊q⌋

/-- The rewind initialisation of `CGameClient::OpenFile`:
`if (state_size) { m_rewindSupported = true; m_rewindMaxFrames = 60.0 * m_frameRate;
m_serializeSize = state_size; m_lastSaveState.resize((state_size + 3) / 4); }`.
The `size_t` assignment truncates the double `60.0 * fps`.  Returns `none`
when `state_size == 0` (rewind stays unsupported, nothing is set). -/
def openFileRewindInit (stateSize : Nat) (fps : ℚ) : Option RewindInit :=
  if stateSize ≠ 0 then
    some { rewindSupported := true
           rewindMaxFrames := (cTrunc (60 * fps)).toNat
           serializeSize := stateSize
           lastSaveStateWords := (stateSize + 4 - 1) / 4 }
  else none

/-- The A/V configuration computed by `CRetroPlayer::Process` before the
frame pump starts. -/
structure AVSetup where
  audioEnabled : Bool
  audioSampleRate : Int
  framerate : ℚ
deriving DecidableEq

/-- The rate-alignment prologue of `CRetroPlayer::Process`:
frame rates outside `[5, 100]` fall back to 60; a sample rate with
`samplerate < 1 || samplerate > 384000` disables audio (playback continues,
the frame rate is not touched); otherwise
`int newSamplerate = static_cast<int>(samplerate)` truncates, and when that
changed the value the frame rate is scaled by `newSamplerate / samplerate`. -/
def retroPlayerProcessRates (clientFrameRate clientSampleRate : ℚ) : AVSetup :=
  let framerate := if clientFrameRate < 5 ∨ clientFrameRate > 100 then 60
                   else clientFrameRate
  if clientSampleRate < 1 ∨ clientSampleRate > 384000 then
    { audioEnabled := false, audioSampleRate := 0, framerate := framerate }
  else
    let newSamplerate : Int := cTrunc clientSampleRate
    { audioEnabled := true
      audioSampleRate := newSamplerate
      framerate :=
        if (newSamplerate : ℚ) ≠ clientSampleRate then
          framerate * newSamplerate / clientSampleRate
        else framerate }

def RETRO_ENVIRONMENT_SET_ROTATION : Nat := 1
def RETRO_ENVIRONMENT_GET_OVERSCAN : Nat := 2
def RETRO_ENVIRONMENT_GET_CAN_DUPE : Nat := 3
def RETRO_ENVIRONMENT_SET_MESSAGE : Nat := 6
def RETRO_ENVIRONMENT_SHUTDOWN : Nat := 7
def RETRO_ENVIRONMENT_SET_PERFORMANCE_LEVEL : Nat := 8
def RETRO_ENVIRONMENT_GET_SYSTEM_DIRECTORY : Nat := 9
def RETRO_ENVIRONMENT_SET_PIXEL_FORMAT : Nat := 10
def RETRO_ENVIRONMENT_SET_INPUT_DESCRIPTORS : Nat := 11
def RETRO_ENVIRONMENT_SET_KEYBOARD_CALLBACK : Nat := 12
def RETRO_ENVIRONMENT_GET_VARIABLE : Nat := 15
def RETRO_ENVIRONMENT_SET_VARIABLES : Nat := 16

/-- The payload a core passes to the environment callback, by shape.  A
`none` field models a null pointer inside an otherwise valid payload; array
payloads are listed up to the null terminator (so `[]` means the first entry
is already the terminator). -/
inductive EnvData where
  | boolCell
  | strCell
  | varQuery (key : Option String) (value : Option String)
  | varArray (entries : List (String × Option String))
  | message (msg : Option String) (frames : Nat)
  | screenRot (degreesStep : Nat)
  | perfLevel (level : Nat)
  | pixelFormat (format : Nat)
  | inputDescriptors (descriptions : List String)
  | keyboardCallback (callbackNonNull : Bool)
deriving DecidableEq

/-- An observable side effect of the environment callback (log lines are not
observable). `requestStop` stands for `g_application.StopPlaying()` (invoked
when the retro player is the active player). -/
inductive EnvEffect where
  | wroteBool (b : Bool)
  | wroteVarValue (v : Option String)
  | wroteSysDirNull
  | setPixelFormat (format : Nat)
  | setKeyboardCallback
  | requestStop
deriving DecidableEq

/-- Return value and side effects of one environment query. -/
structure EnvOutcome where
  ret : Bool
  effects : List EnvEffect
deriving DecidableEq

/-- `CGameClient::EnvironmentCallback(unsigned cmd, void *data)`.  The result
is `none` exactly when the handler dereferences a null pointer (undefined
behaviour in the source); mismatched payload shapes (a core passing a payload
of the wrong type) are likewise `none`.  The leading guard is the source's
`if (!(cmd == SHUTDOWN || cmd == GET_SYSTEM_DIRECTORY) && !data) return false;`. -/
def EnvironmentCallback (cmd : Nat) (data : Option EnvData) :
    Option EnvOutcome :=
  if ¬(cmd = RETRO_ENVIRONMENT_SHUTDOWN ∨
        cmd = RETRO_ENVIRONMENT_GET_SYSTEM_DIRECTORY) ∧ data.isNone then
    some { ret := false, effects := [] }
  else if cmd = RETRO_ENVIRONMENT_GET_OVERSCAN then
    match data with
    | some EnvData.boolCell =>
      some { ret := true, effects := [EnvEffect.wroteBool false] }
    | _ => none
  else if cmd = RETRO_ENVIRONMENT_GET_CAN_DUPE then
    match data with
    | some EnvData.boolCell =>
      some { ret := true, effects := [EnvEffect.wroteBool true] }
    | _ => none
  else if cmd = RETRO_ENVIRONMENT_GET_VARIABLE then
    match data with
    | some (EnvData.varQuery key value) =>
      match key, value with
      | some k, some _ =>
        if k.startsWith "too_sexy_for" then
          some { ret := true
                 effects := [EnvEffect.wroteVarValue (some "my_shirt")] }
        else
          some { ret := true, effects := [EnvEffect.wroteVarValue none] }
      | _, _ =>
        if value.isSome then
          some { ret := true, effects := [EnvEffect.wroteVarValue none] }
        else some { ret := true, effects := [] }
    | _ => none
  else if cmd = RETRO_ENVIRONMENT_SET_VARIABLES then
    match data with
    | some (EnvData.varArray _) => some { ret := true, effects := [] }
    | _ => none
  else if cmd = RETRO_ENVIRONMENT_SET_MESSAGE then
    match data with
    | some (EnvData.message _ _) => some { ret := true, effects := [] }
    | _ => none
  else if cmd = RETRO_ENVIRONMENT_SET_ROTATION then
    match data with
    | some (EnvData.screenRot _) => some { ret := true, effects := [] }
    | _ => none
  else if cmd = RETRO_ENVIRONMENT_SHUTDOWN then
    some { ret := true, effects := [EnvEffect.requestStop] }
  else if cmd = RETRO_ENVIRONMENT_SET_PERFORMANCE_LEVEL then
    match data with
    | some (EnvData.perfLevel _) => some { ret := true, effects := [] }
    | _ => none
  else if cmd = RETRO_ENVIRONMENT_GET_SYSTEM_DIRECTORY then
    match data with
    | some EnvData.strCell =>
      some { ret := true, effects := [EnvEffect.wroteSysDirNull] }
    | _ => none
  else if cmd = RETRO_ENVIRONMENT_SET_PIXEL_FORMAT then
    match data with
    | some (EnvData.pixelFormat format) =>
      if format = 0 ∨ format = 1 ∨ format = 2 then
        some { ret := true, effects := [EnvEffect.setPixelFormat format] }
      else some { ret := false, effects := [] }
    | _ => none
  else if cmd = RETRO_ENVIRONMENT_SET_INPUT_DESCRIPTORS then
    match data with
    | some (EnvData.inputDescriptors _) => some { ret := true, effects := [] }
    | _ => none
  else if cmd = RETRO_ENVIRONMENT_SET_KEYBOARD_CALLBACK then
    match data with
    | some (EnvData.keyboardCallback cb) =>
      if cb then
        some { ret := true, effects := [EnvEffect.setKeyboardCallback] }
      else some { ret := true, effects := [] }
    | _ => none
  else some { ret := false, effects := [] }

/-- Properties asserted by the rewind contract for `RewindFrames st n` with
`n > 0` and `L = st.rewindBuffer.length`: the call returns `min n L`; the
ring afterwards is the unpopped front prefix, of length `L - min n L`; the
popped deltas are XOR-applied into `m_lastSaveState` newest-first;
`retro_unserialize` is invoked, with the updated `m_lastSaveState`, iff at
least one frame was rolled back; `m_rewindMaxFrames` is untouched. -/
def RewindFramesSpec (st : GameClientState) (n : Int) : Prop :=
  (RewindFrames st n).framesRewound = min n (st.rewindBuffer.length : Int) ∧
  (RewindFrames st n).state.rewindBuffer
      = st.rewindBuffer.take
          (st.rewindBuffer.length - min n.toNat st.rewindBuffer.length) ∧
  (RewindFrames st n).state.rewindBuffer.length
      = st.rewindBuffer.length - min n.toNat st.rewindBuffer.length ∧
  (RewindFrames st n).state.lastSaveState
      = applyDeltas st.lastSaveState
          (st.rewindBuffer.reverse.take (min n.toNat st.rewindBuffer.length)) ∧
  (RewindFrames st n).state.rewindMaxFrames = st.rewindMaxFrames ∧
  (RewindFrames st n).unserializeArg
      = (if st.rewindBuffer.length ≠ 0
         then some ((RewindFrames st n).state.lastSaveState) else none)

/-- Properties of one successful capture: `m_lastSaveState` becomes the new
snapshot, the newest ring entry is the scanned delta, and XOR-applying that
delta to the new `m_lastSaveState` reconstructs the previous snapshot. -/
def CaptureOneStep (st : GameClientState) (stateBuffer : List Nat) : Prop :=
  (AppendStateDelta st (some stateBuffer)).lastSaveState = stateBuffer ∧
  (AppendStateDelta st (some stateBuffer)).rewindBuffer.getLast?
      = some (deltaScan st.lastSaveState stateBuffer) ∧
  applyDelta stateBuffer (deltaScan st.lastSaveState stateBuffer)
      = st.lastSaveState

/-- Properties of two successive successful captures: the two newest ring
entries are the two scanned deltas (newest last), and applying them to
`m_lastSaveState` in LIFO order walks back one, then two captures. -/
def CaptureTwoStep (st : GameClientState) (buf1 buf2 : List Nat) : Prop :=
  (AppendStateDelta (AppendStateDelta st (some buf1)) (some buf2)).lastSaveState
      = buf2 ∧
  (AppendStateDelta (AppendStateDelta st (some buf1)) (some buf2)).rewindBuffer.getLast?
      = some (deltaScan buf1 buf2) ∧
  (AppendStateDelta (AppendStateDelta st (some buf1)) (some buf2)).rewindBuffer.dropLast.getLast?
      = some (deltaScan st.lastSaveState buf1) ∧
  applyDelta buf2 (deltaScan buf1 buf2) = buf1 ∧
  applyDelta (applyDelta buf2 (deltaScan buf1 buf2))
      (deltaScan st.lastSaveState buf1) = st.lastSaveState

/-- The ring-bound invariant after a trace: the ring never exceeds
`m_rewindMaxFrames`, which itself never changes. -/
def RingBounded (st : GameClientState) (ops : List GCOp) : Prop :=
  (runOps st ops).rewindBuffer.length ≤ (runOps st ops).rewindMaxFrames ∧
  (runOps st ops).rewindMaxFrames = st.rewindMaxFrames

theorem length_xorAt (s : List Nat) (i v : Nat) : (xorAt s i v).length = s.length := by
  simp [xorAt]

theorem length_applyDelta (d : List (Nat × Nat)) :
    ∀ s : List Nat, (applyDelta s d).length = s.length := by
  induction d with
  | nil => intro s; rfl
  | cons p d ih =>
    intro s
    show (applyDelta (xorAt s p.1 p.2) d).length = s.length
    rw [ih, length_xorAt]

theorem deltaXor_cons (p : Nat × Nat) (d : List (Nat × Nat)) (i : Nat) :
    deltaXor (p :: d) i = if p.1 = i then p.2 ^^^ deltaXor d i else deltaXor d i := rfl

theorem getElem?_applyDelta (d : List (Nat × Nat)) :
    ∀ (s : List Nat) (i : Nat),
      (applyDelta s d)[i]? = (s[i]?).map (fun x => x ^^^ deltaXor d i) := by
  induction d with
  | nil =>
    intro s i
    show s[i]? = (s[i]?).map (fun x => x ^^^ deltaXor [] i)
    cases s[i]? <;> simp [deltaXor]
  | cons p d ih =>
    intro s i
    show (applyDelta (xorAt s p.1 p.2) d)[i]? = _
    rw [ih, deltaXor_cons]
    by_cases hpi : p.1 = i
    · subst hpi
      rw [if_pos rfl]
      by_cases hlen : p.1 < s.length
      · have hx : s[p.1]? = some s[p.1] := List.getElem?_eq_getElem hlen
        have hgetD : s.getD p.1 0 = s[p.1] := by rw [List.getD_eq_getElem?_getD, hx]; rfl
        rw [xorAt, hgetD, List.getElem?_set_self hlen, hx]
        simp [Nat.xor_assoc]
      · have hle := Nat.le_of_not_lt hlen
        have hset : xorAt s p.1 p.2 = s := by
          rw [xorAt, List.set_eq_of_length_le hle]
        have hnone : s[p.1]? = none := List.getElem?_eq_none hle
        rw [hset, hnone]
        simp
    · have hne : (xorAt s p.1 p.2)[i]? = s[i]? := by
        rw [xorAt]
        exact List.getElem?_set_ne hpi
      rw [hne, if_neg hpi]

theorem applyDelta_applyDelta (s : List Nat) (d : List (Nat × Nat)) :
    applyDelta (applyDelta s d) d = s := by
  apply List.ext_getElem?
  intro i
  rw [getElem?_applyDelta, getElem?_applyDelta]
  cases s[i]? <;> simp [Nat.xor_assoc]


theorem deltaXor_deltaScanFrom_lt :
    ∀ (as bs : List Nat) (k j : Nat), j < k →
      deltaXor (deltaScanFrom k as bs) j = 0 := by
  intro as
  induction as with
  | nil => intro bs k j _; cases bs <;> rfl
  | cons a as ih =>
    intro bs k j hj
    cases bs with
    | nil => rfl
    | cons b bs =>
      rw [deltaScanFrom]
      by_cases hq : a ^^^ b = 0
      · rw [if_neg (by simp [hq])]
        exact ih bs (k + 1) j (by omega)
      · rw [if_pos (by simp [hq])]
        rw [deltaXor_cons]
        rw [if_neg (by omega)]
        exact ih bs (k + 1) j (by omega)

theorem deltaXor_deltaScanFrom :
    ∀ (as bs : List Nat) (k i : Nat),
      deltaXor (deltaScanFrom k as bs) (k + i)
        = (((as.zip bs)[i]?).map (fun q => q.1 ^^^ q.2)).getD 0 := by
  intro as
  induction as with
  | nil => intro bs k i; cases bs <;> simp [deltaScanFrom, deltaXor]
  | cons a as ih =>
    intro bs k i
    cases bs with
    | nil => simp [deltaScanFrom, deltaXor]
    | cons b bs =>
      rw [deltaScanFrom]
      cases i with
      | zero =>
        by_cases hq : a ^^^ b = 0
        · rw [if_neg (by simp [hq])]
          rw [deltaXor_deltaScanFrom_lt as bs (k + 1) (k + 0) (by omega)]
          simp [hq]
        · rw [if_pos (by simp [hq])]
          rw [deltaXor_cons]
          rw [if_pos (by omega)]
          rw [deltaXor_deltaScanFrom_lt as bs (k + 1) (k + 0) (by omega)]
          simp
      | succ i2 =>
        have harith : k + (i2 + 1) = (k + 1) + i2 := by omega
        rw [harith]
        by_cases hq : a ^^^ b = 0
        · rw [if_neg (by simp [hq])]
          rw [ih bs (k + 1) i2]
          simp
        · rw [if_pos (by simp [hq])]
          rw [deltaXor_cons]
          rw [if_neg (by omega)]
          rw [ih bs (k + 1) i2]
          simp

theorem applyDelta_deltaScan (lastState stateBuffer : List Nat)
    (h : stateBuffer.length = lastState.length) :
    applyDelta stateBuffer (deltaScan lastState stateBuffer) = lastState := by
  apply List.ext_getElem?
  intro i
  rw [getElem?_applyDelta]
  have hscan : deltaXor (deltaScan lastState stateBuffer) i
      = (((lastState.zip stateBuffer)[i]?).map (fun q => q.1 ^^^ q.2)).getD 0 := by
    have h0 := deltaXor_deltaScanFrom lastState stateBuffer 0 i
    rw [Nat.zero_add] at h0
    exact h0
  by_cases hi : i < lastState.length
  · have hib : i < stateBuffer.length := by omega
    have hb : stateBuffer[i]? = some stateBuffer[i] := List.getElem?_eq_getElem hib
    have ha : lastState[i]? = some lastState[i] := List.getElem?_eq_getElem hi
    have hz : (lastState.zip stateBuffer)[i]? = some (lastState[i], stateBuffer[i]) := by
      rw [List.getElem?_zip_eq_some]
      exact ⟨ha, hb⟩
    rw [hscan, hz, hb, ha]
    have hc : stateBuffer[i] ^^^ (lastState[i] ^^^ stateBuffer[i]) = lastState[i] := by
      rw [Nat.xor_comm (lastState[i]) (stateBuffer[i]), ← Nat.xor_assoc]
      simp
    simp [hc]
  · have hib : stateBuffer.length ≤ i := by omega
    rw [List.getElem?_eq_none hib, List.getElem?_eq_none (by omega : lastState.length ≤ i)]
    rfl

theorem evict_eq_drop (ring : List (List (Nat × Nat))) (m : Nat) :
    evict ring m = ring.drop (ring.length - m) := by
  induction ring with
  | nil => rw [evict]; simp
  | cons a t ih =>
    rw [evict]
    by_cases hlen : (a :: t).length > m
    · rw [if_pos hlen]
      rw [List.tail_cons, ih]
      have hb : (a :: t).length - m = (t.length - m) + 1 := by
        simp at hlen ⊢
        omega
      rw [hb, List.drop_succ_cons]
    · rw [if_neg hlen]
      have hb : (a :: t).length - m = 0 := by
        simp at hlen ⊢
        omega
      rw [hb, List.drop_zero]

theorem evict_length_le (ring : List (List (Nat × Nat))) (m : Nat) :
    (evict ring m).length ≤ m := by
  rw [evict_eq_drop]
  rw [List.length_drop]
  omega

theorem evict_concat (ring : List (List (Nat × Nat))) (d : List (Nat × Nat))
    (m : Nat) (h : 1 ≤ m) :
    evict (ring ++ [d]) m = ring.drop (ring.length + 1 - m) ++ [d] := by
  rw [evict_eq_drop]
  have hle : (ring ++ [d]).length - m ≤ ring.length := by
    simp
    omega
  rw [List.drop_append_of_le_length hle]
  congr 1
  simp

theorem rewindLoop_eq (ring : List (List (Nat × Nat))) :
    ∀ (frames acc : Int) (lastState : List Nat),
      rewindLoop frames lastState ring acc =
        if 0 < frames then
          (acc + (min frames.toNat ring.length : Nat),
           applyDeltas lastState (ring.reverse.take (min frames.toNat ring.length)),
           ring.take (ring.length - min frames.toNat ring.length))
        else (acc, lastState, ring) := by
  induction ring using List.reverseRecOn with
  | nil =>
    intro frames acc lastState
    rw [rewindLoop]
    by_cases hf : 0 < frames <;> simp [hf, applyDeltas]
  | append_singleton ys y ih =>
    intro frames acc lastState
    rw [rewindLoop]
    by_cases hf : 0 < frames
    · have hcond : 0 < frames ∧ 0 < (ys ++ [y]).length := ⟨hf, by simp⟩
      rw [dif_pos hcond]
      rw [List.getLast?_concat, List.dropLast_concat]
      simp only [Option.getD_some]
      rw [ih]
      rw [if_pos hf]
      by_cases hf1 : 0 < frames - 1
      · rw [if_pos hf1]
        have hk : min frames.toNat ((ys ++ [y]).length)
            = min (frames - 1).toNat ys.length + 1 := by
          simp only [List.length_append, List.length_cons, List.length_nil]
          omega
        rw [hk]
        refine Prod.ext ?_ (Prod.ext ?_ ?_)
        · show acc + 1 + ((min (frames - 1).toNat ys.length : Nat) : Int)
              = acc + ((min (frames - 1).toNat ys.length + 1 : Nat) : Int)
          push_cast
          ring
        · show applyDeltas (applyDelta lastState y)
              (ys.reverse.take (min (frames - 1).toNat ys.length))
            = applyDeltas lastState
              ((ys ++ [y]).reverse.take (min (frames - 1).toNat ys.length + 1))
          rw [List.reverse_concat, List.take_succ_cons]
          rfl
        · show ys.take (ys.length - min (frames - 1).toNat ys.length)
            = (ys ++ [y]).take ((ys ++ [y]).length - (min (frames - 1).toNat ys.length + 1))
          have hlen2 : (ys ++ [y]).length - (min (frames - 1).toNat ys.length + 1)
              = ys.length - min (frames - 1).toNat ys.length := by
            simp only [List.length_append, List.length_cons, List.length_nil]
            omega
          rw [hlen2]
          rw [List.take_append_of_le_length (by omega)]
      · rw [if_neg hf1]
        have hfr1 : frames = 1 := by omega
        subst hfr1
        have hk : min (1 : Int).toNat ((ys ++ [y]).length) = 1 := by
          simp only [List.length_append, List.length_cons, List.length_nil]
          omega
        rw [hk]
        refine Prod.ext ?_ (Prod.ext ?_ ?_)
        · push_cast
          ring
        · show applyDelta lastState y
            = applyDeltas lastState ((ys ++ [y]).reverse.take 1)
          rw [List.reverse_concat, List.take_succ_cons, List.take_zero]
          rfl
        · show ys = (ys ++ [y]).take ((ys ++ [y]).length - 1)
          have hl : (ys ++ [y]).length - 1 = ys.length := by simp
          rw [hl, List.take_left]
    · have hcond : ¬(0 < frames ∧ 0 < (ys ++ [y]).length) := by tauto
      rw [dif_neg hcond, if_neg hf]

theorem appendStateDelta_some (st : GameClientState) (stateBuffer : List Nat)
    (h : st.rewindSupported = true) :
    AppendStateDelta st (some stateBuffer) =
      { st with
          lastSaveState := stateBuffer
          rewindBuffer :=
            evict (st.rewindBuffer ++ [deltaScan st.lastSaveState stateBuffer])
              st.rewindMaxFrames } := by
  rw [AppendStateDelta, h]
  simp

theorem appendStateDelta_none (st : GameClientState) :
    AppendStateDelta st none = st := by
  rw [AppendStateDelta]
  by_cases hs : st.rewindSupported = false <;> simp [hs]

/-- Claim C10: a `RewindFrames` call with a non-positive argument returns 0,
leaves `m_lastSaveState` and the ring untouched, and never invokes
`retro_unserialize`. -/
theorem rewindFrames_nonpositive (st : GameClientState) (n : Int) (h : n ≤ 0) :
    RewindFrames st n = { framesRewound := 0, state := st, unserializeArg := none } := by
  have hloop := rewindLoop_eq st.rewindBuffer n 0 st.lastSaveState
  rw [if_neg (by omega)] at hloop
  simp only [RewindFrames]
  rw [hloop]
  simp

/-- Witness for claim C10 at a concrete state and argument. -/
theorem rewindFrames_nonpositive_witness :
    (-2 : Int) ≤ 0 ∧
    RewindFrames ⟨true, 5, 4, [9], [[(0, 1)]]⟩ (-2)
      = { framesRewound := 0
          state := ⟨true, 5, 4, [9], [[(0, 1)]]⟩
          unserializeArg := none } :=
  ⟨by decide, rewindFrames_nonpositive ⟨true, 5, 4, [9], [[(0, 1)]]⟩ (-2) (by decide)⟩

/-- Claim C1: `RewindFrames(n)` with `n > 0` on a ring of length `L` returns
`min n L`, shrinks the ring from the back to length `L - min n L`, applies
the popped deltas into `m_lastSaveState` newest-first, and invokes
`retro_unserialize` with `m_lastSaveState` iff at least one frame was rolled
back. -/
theorem rewindFrames_rolls_back_min (st : GameClientState) (n : Int)
    (h : 0 < n) : RewindFramesSpec st n := by
  unfold RewindFramesSpec
  have hloop := rewindLoop_eq st.rewindBuffer n 0 st.lastSaveState
  rw [if_pos h] at hloop
  simp only [RewindFrames]
  rw [hloop]
  refine ⟨?_, rfl, ?_, rfl, trivial, ?_⟩
  · show (0 : Int) + ((min n.toNat st.rewindBuffer.length : Nat) : Int)
        = min n (st.rewindBuffer.length : Int)
    omega
  · show (List.take
        (st.rewindBuffer.length - min n.toNat st.rewindBuffer.length)
        st.rewindBuffer).length
      = st.rewindBuffer.length - min n.toNat st.rewindBuffer.length
    rw [List.length_take]
    omega
  · by_cases hL : st.rewindBuffer.length = 0
    · simp [hL]
    · have h1 : (0 : Int) + ((min n.toNat st.rewindBuffer.length : Nat) : Int) ≠ 0 := by
        omega
      simp only [h1, hL, if_true, if_false, ne_eq, not_false_iff, ite_true]

/-- Witness for claim C1 at a concrete state and argument. -/
theorem rewindFrames_rolls_back_min_witness :
    (0 : Int) < 3 ∧ RewindFramesSpec ⟨true, 10, 4, [5], [[(0, 1)], [(0, 3)]]⟩ 3 :=
  ⟨by decide, rewindFrames_rolls_back_min ⟨true, 10, 4, [5], [[(0, 1)], [(0, 3)]]⟩ 3 (by decide)⟩

/-- Claim C9: when `retro_serialize` fails mid-run the capture is skipped
and the whole rewind state (in particular `m_lastSaveState` and the ring) is
exactly as before the call. -/
theorem appendStateDelta_failure_atomic (st : GameClientState) :
    AppendStateDelta st none = st ∧
    (AppendStateDelta st none).lastSaveState = st.lastSaveState ∧
    (AppendStateDelta st none).rewindBuffer = st.rewindBuffer := by
  have h := appendStateDelta_none st
  exact ⟨h, by rw [h], by rw [h]⟩

theorem captureOneStep_holds (st : GameClientState) (stateBuffer : List Nat)
    (hs : st.rewindSupported = true)
    (hlen : stateBuffer.length = st.lastSaveState.length)
    (hm : 1 ≤ st.rewindMaxFrames) :
    CaptureOneStep st stateBuffer := by
  unfold CaptureOneStep
  rw [appendStateDelta_some st stateBuffer hs]
  refine ⟨rfl, ?_, applyDelta_deltaScan st.lastSaveState stateBuffer hlen⟩
  show (evict (st.rewindBuffer ++ [deltaScan st.lastSaveState stateBuffer])
      st.rewindMaxFrames).getLast? = _
  rw [evict_concat _ _ _ hm]
  rw [List.getLast?_concat]

theorem captureTwoStep_holds (st : GameClientState) (buf1 buf2 : List Nat)
    (hs : st.rewindSupported = true)
    (hlen1 : buf1.length = st.lastSaveState.length)
    (hlen2 : buf2.length = buf1.length)
    (hm : 2 ≤ st.rewindMaxFrames) :
    CaptureTwoStep st buf1 buf2 := by
  have hm1 : 1 ≤ st.rewindMaxFrames := by omega
  have h1 := appendStateDelta_some st buf1 hs
  unfold CaptureTwoStep
  rw [h1]
  have h2 := appendStateDelta_some
    { st with
        lastSaveState := buf1
        rewindBuffer :=
          evict (st.rewindBuffer ++ [deltaScan st.lastSaveState buf1])
            st.rewindMaxFrames } buf2 hs
  rw [h2]
  rw [evict_concat _ _ _ hm1]
  refine ⟨rfl, ?_, ?_, applyDelta_deltaScan buf1 buf2 hlen2, ?_⟩
  · show (evict ((List.drop (st.rewindBuffer.length + 1 - st.rewindMaxFrames)
        st.rewindBuffer ++ [deltaScan st.lastSaveState buf1])
        ++ [deltaScan buf1 buf2]) st.rewindMaxFrames).getLast? = _
    rw [evict_concat _ _ _ hm1]
    rw [List.getLast?_concat]
  · show (evict ((List.drop (st.rewindBuffer.length + 1 - st.rewindMaxFrames)
        st.rewindBuffer ++ [deltaScan st.lastSaveState buf1])
        ++ [deltaScan buf1 buf2]) st.rewindMaxFrames).dropLast.getLast? = _
    rw [evict_concat _ _ _ hm1]
    rw [List.dropLast_concat]
    have hle : ((List.drop (st.rewindBuffer.length + 1 - st.rewindMaxFrames)
          st.rewindBuffer ++ [deltaScan st.lastSaveState buf1]).length + 1
          - st.rewindMaxFrames)
        ≤ (List.drop (st.rewindBuffer.length + 1 - st.rewindMaxFrames)
          st.rewindBuffer).length := by
      simp only [List.length_append, List.length_drop, List.length_cons,
        List.length_nil]
      omega
    rw [List.drop_append_of_le_length hle]
    rw [List.getLast?_concat]
  · rw [applyDelta_deltaScan buf1 buf2 hlen2]
    exact applyDelta_deltaScan st.lastSaveState buf1 hlen1

/-- Claim C2: XOR-applying a delta twice is the identity on
`m_lastSaveState`; after a capture, applying the newest ring delta to
`m_lastSaveState` reconstructs the snapshot serialized one capture earlier,
and after two captures, applying the two newest deltas in LIFO order walks
back one, then two captures. -/
theorem xorDelta_reconstruction :
    (∀ (s : List Nat) (d : List (Nat × Nat)),
        applyDelta (applyDelta s d) d = s) ∧
    (∀ (st : GameClientState) (stateBuffer : List Nat),
        st.rewindSupported = true →
        stateBuffer.length = st.lastSaveState.length →
        1 ≤ st.rewindMaxFrames →
        CaptureOneStep st stateBuffer) ∧
    (∀ (st : GameClientState) (buf1 buf2 : List Nat),
        st.rewindSupported = true →
        buf1.length = st.lastSaveState.length →
        buf2.length = buf1.length →
        2 ≤ st.rewindMaxFrames →
        CaptureTwoStep st buf1 buf2) :=
  ⟨applyDelta_applyDelta, captureOneStep_holds, captureTwoStep_holds⟩

/-- Witness for claim C2 at concrete states and buffers. -/
theorem xorDelta_reconstruction_witness :
    applyDelta (applyDelta [1, 2] [(0, 3)]) [(0, 3)] = [1, 2] ∧
    CaptureOneStep ⟨true, 10, 8, [1, 2], []⟩ [1, 3] ∧
    CaptureTwoStep ⟨true, 10, 8, [1, 2], []⟩ [1, 3] [7, 3] :=
  ⟨xorDelta_reconstruction.1 [1, 2] [(0, 3)],
   xorDelta_reconstruction.2.1 ⟨true, 10, 8, [1, 2], []⟩ [1, 3]
     (by decide) (by decide) (by decide),
   xorDelta_reconstruction.2.2 ⟨true, 10, 8, [1, 2], []⟩ [1, 3] [7, 3]
     (by decide) (by decide) (by decide) (by decide)⟩

theorem appendStateDelta_rewindMaxFrames (st : GameClientState)
    (serialized : Option (List Nat)) :
    (AppendStateDelta st serialized).rewindMaxFrames = st.rewindMaxFrames := by
  cases serialized with
  | none => rw [appendStateDelta_none]
  | some stateBuffer =>
    by_cases hs : st.rewindSupported = true
    · rw [appendStateDelta_some st stateBuffer hs]
    · have hf : st.rewindSupported = false := by
        revert hs
        cases st.rewindSupported <;> simp
      rw [AppendStateDelta, hf]
      simp

theorem appendStateDelta_length_le (st : GameClientState)
    (serialized : Option (List Nat))
    (h : st.rewindBuffer.length ≤ st.rewindMaxFrames) :
    (AppendStateDelta st serialized).rewindBuffer.length ≤ st.rewindMaxFrames := by
  cases serialized with
  | none =>
    rw [appendStateDelta_none]
    exact h
  | some stateBuffer =>
    by_cases hs : st.rewindSupported = true
    · rw [appendStateDelta_some st stateBuffer hs]
      exact evict_length_le _ _
    · have hf : st.rewindSupported = false := by
        revert hs
        cases st.rewindSupported <;> simp
      rw [AppendStateDelta, hf]
      simpa using h

theorem rewindFrames_rewindMaxFrames (st : GameClientState) (n : Int) :
    (RewindFrames st n).state.rewindMaxFrames = st.rewindMaxFrames := rfl

theorem rewindFrames_length_le (st : GameClientState) (n : Int) :
    (RewindFrames st n).state.rewindBuffer.length ≤ st.rewindBuffer.length := by
  simp only [RewindFrames]
  have hloop := rewindLoop_eq st.rewindBuffer n 0 st.lastSaveState
  by_cases hf : 0 < n
  · rw [if_pos hf] at hloop
    rw [hloop]
    show (List.take _ st.rewindBuffer).length ≤ _
    rw [List.length_take]
    omega
  · rw [if_neg hf] at hloop
    rw [hloop]

/-- Claim C3: starting from a state within the bound, after any sequence of
captures and rewinds the ring length never exceeds `m_rewindMaxFrames`
(which never changes); moreover a successful capture evicts down to the
bound no matter how long the ring was before. -/
theorem rewindBuffer_bounded (st : GameClientState) (ops : List GCOp)
    (h : st.rewindBuffer.length ≤ st.rewindMaxFrames) :
    RingBounded st ops ∧
    (∀ (st2 : GameClientState) (stateBuffer : List Nat),
        st2.rewindSupported = true →
        (AppendStateDelta st2 (some stateBuffer)).rewindBuffer.length
          ≤ st2.rewindMaxFrames) := by
  constructor
  · unfold RingBounded
    induction ops generalizing st with
    | nil => exact ⟨h, rfl⟩
    | cons op rest ih =>
      have hmax : (stepOp st op).rewindMaxFrames = st.rewindMaxFrames := by
        cases op with
        | append serialized => exact appendStateDelta_rewindMaxFrames st serialized
        | rewind n => exact rewindFrames_rewindMaxFrames st n
      have hstep : (stepOp st op).rewindBuffer.length
          ≤ (stepOp st op).rewindMaxFrames := by
        rw [hmax]
        cases op with
        | append serialized => exact appendStateDelta_length_le st serialized h
        | rewind n => exact Nat.le_trans (rewindFrames_length_le st n) h
      have hrest := ih (stepOp st op) hstep
      refine ⟨hrest.1, ?_⟩
      show (runOps (stepOp st op) rest).rewindMaxFrames = st.rewindMaxFrames
      rw [hrest.2, hmax]
  · intro st2 stateBuffer hs
    rw [appendStateDelta_some st2 stateBuffer hs]
    exact evict_length_le _ _

/-- Witness for claim C3 at a concrete state and trace. -/
theorem rewindBuffer_bounded_witness :
    (⟨true, 1, 4, [0], []⟩ : GameClientState).rewindBuffer.length
        ≤ (⟨true, 1, 4, [0], []⟩ : GameClientState).rewindMaxFrames ∧
    (RingBounded ⟨true, 1, 4, [0], []⟩
        [GCOp.append (some [5]), GCOp.append (some [3]), GCOp.rewind 1] ∧
      ∀ (st2 : GameClientState) (stateBuffer : List Nat),
        st2.rewindSupported = true →
        (AppendStateDelta st2 (some stateBuffer)).rewindBuffer.length
          ≤ st2.rewindMaxFrames) :=
  ⟨by decide,
   rewindBuffer_bounded ⟨true, 1, 4, [0], []⟩
     [GCOp.append (some [5]), GCOp.append (some [3]), GCOp.rewind 1] (by decide)⟩

theorem tryStrategies_spec {γ : Type} (canLoad : StrategyKind → Bool)
    (getGameInfo : StrategyKind → Option γ) (loadGame : γ → Bool) :
    ∀ ss : List StrategyKind,
      tryStrategies canLoad getGameInfo loadGame ss =
        ((applicableInfos canLoad getGameInfo ss).any loadGame,
         takeThroughFirst loadGame (applicableInfos canLoad getGameInfo ss)) := by
  intro ss
  induction ss with
  | nil => rfl
  | cons s rest ih =>
    rw [tryStrategies, applicableInfos]
    by_cases hc : canLoad s
    · rw [if_pos hc, if_pos hc]
      cases hg : getGameInfo s with
      | none => exact ih
      | some info =>
        dsimp only
        by_cases hl : loadGame info
        · rw [if_pos hl]
          rw [List.any_cons]
          rw [takeThroughFirst, if_pos hl]
          simp [hl]
        · rw [if_neg hl]
          rw [List.any_cons]
          rw [takeThroughFirst, if_neg hl]
          rw [ih]
          simp [hl]
    · rw [if_neg hc, if_neg hc]
      exact ih

/-- Claim C4: the strategy order is HD, parent-zip, in-memory (VFS),
enter-zip when `prefer_vfs` is false, and in-memory, enter-zip, HD,
parent-zip when it is true; a presentation is handed to `retro_load_game`
only for strategies whose applicability test (and presentation production)
passes, and a false return from `retro_load_game` advances the loop to the
next strategy, the call trace being exactly the applicable presentations up
to and including the first success. -/
theorem openFile_strategy_resolution :
    openFileStrategies false = [StrategyKind.useHD, StrategyKind.useParentZip,
      StrategyKind.useVFS, StrategyKind.enterZip] ∧
    openFileStrategies true = [StrategyKind.useVFS, StrategyKind.enterZip,
      StrategyKind.useHD, StrategyKind.useParentZip] ∧
    (∀ (γ : Type) (canLoad : StrategyKind → Bool)
        (getGameInfo : StrategyKind → Option γ) (loadGame : γ → Bool)
        (preferVfs : Bool),
      tryStrategies canLoad getGameInfo loadGame (openFileStrategies preferVfs) =
        ((applicableInfos canLoad getGameInfo (openFileStrategies preferVfs)).any
            loadGame,
         takeThroughFirst loadGame
           (applicableInfos canLoad getGameInfo (openFileStrategies preferVfs)))) :=
  ⟨rfl, rfl,
   fun _ canLoad getGameInfo loadGame preferVfs =>
     tryStrategies_spec canLoad getGameInfo loadGame (openFileStrategies preferVfs)⟩

/-- Claim C5 (code bug): for a core whose extension list was set from
`"zip|nes"` with the allow-zip setting enabled, the stored set is
`[".zip", ".nes"]` — so the core does accept `.zip` (third conjunct, queried
the way every other call site queries, with the dotted extension) — yet
`CStrategyUseParentZip::CanLoad` rejects a file that sits at the root of a
local zip archive, because it looks up the undotted string `"zip"` in the
dot-prefixed list.  The strategy only ever passes vacuously, for a core that
declared no extensions at all (last conjunct). -/
theorem parentZip_zip_check_code_bug :
    SetExtensions ["zip", "nes"] true = [".zip", ".nes"] ∧
    IsExtensionValid (SetExtensions ["zip", "nes"] true) ".zip" = true ∧
    CanLoadParentZip (SetExtensions ["zip", "nes"] true)
      ⟨true, "", "", "/roms/pack.zip"⟩ = none ∧
    CanLoadParentZip [] ⟨true, "", "", "/roms/pack.zip"⟩
      = some "/roms/pack.zip" := by
  refine ⟨by decide, by decide, by decide, by decide⟩

/-- Counterexample for claim C6: at `fps = 60.51` (and non-zero
`serialize_size`) the code sets `m_rewindMaxFrames` to 3630, the truncation
of `60 * fps = 3630.6`, whereas rounding would give 3631. -/
theorem rewindMaxFrames_not_round :
    (openFileRewindInit 1 (6051 / 100)).map RewindInit.rewindMaxFrames
        = some 3630 ∧
    round ((60 : ℚ) * (6051 / 100)) = 3631 ∧
    (3630 : Nat) ≠ 3631 := by
  refine ⟨?_, ?_, by decide⟩
  · norm_num [openFileRewindInit, cTrunc]
    simp
  · rw [round_eq]
    norm_num

/-- Claim C6 as amended: for every `OpenFile` whose core reports a non-zero
`serialize_size`, rewind is enabled and `m_rewindMaxFrames` is set to the
integer truncation (for a non-negative frame rate, the floor) of `60 * fps`;
the snapshot word count is `⌈serialize_size / 4⌉`. -/
theorem rewindMaxFrames_truncates (stateSize : Nat) (fps : ℚ)
    (h : stateSize ≠ 0) (hfps : 0 ≤ fps) :
    openFileRewindInit stateSize fps
      = some { rewindSupported := true
               rewindMaxFrames := (⌊60 * fps⌋).toNat
               serializeSize := stateSize
               lastSaveStateWords := (stateSize + 3) / 4 } := by
  rw [openFileRewindInit, if_pos h]
  have hc : cTrunc (60 * fps) = ⌊60 * fps⌋ := by
    rw [cTrunc, if_neg (not_lt.mpr (mul_nonneg (by norm_num) hfps))]
  rw [hc]
  have harith : (stateSize + 4 - 1) / 4 = (stateSize + 3) / 4 := by omega
  rw [harith]

/-- Witness for the amended claim C6 at a concrete size and frame rate. -/
theorem rewindMaxFrames_truncates_witness :
    (1 : Nat) ≠ 0 ∧ (0 : ℚ) ≤ 6051 / 100 ∧
    openFileRewindInit 1 (6051 / 100)
      = some { rewindSupported := true
               rewindMaxFrames := (⌊(60 : ℚ) * (6051 / 100)⌋).toNat
               serializeSize := 1
               lastSaveStateWords := 1 } :=
  ⟨by decide, by norm_num,
   rewindMaxFrames_truncates 1 (6051 / 100) (by decide) (by norm_num)⟩

/-- Counterexample for claim C7, at two concrete sample rates.  At rate
`0.5` (which is neither `≤ 0` nor `> 384000`, first two conjuncts) the code
disables audio, whereas the claim requires the audio path to stay enabled
and the rate to be snapped; and at rate `32040.7` the code produces 32040 by
truncation, although 32041 is the strictly nearest integer (last
conjunct). -/
theorem processRates_not_nearest :
    ¬((1 : ℚ) / 2 ≤ 0) ∧ ¬((1 : ℚ) / 2 > 384000) ∧
    (retroPlayerProcessRates 60 (1 / 2)).audioEnabled = false ∧
    (retroPlayerProcessRates 60 (320407 / 10)).audioSampleRate = 32040 ∧
    |(320407 / 10 : ℚ) - 32041| < |(320407 / 10 : ℚ) - 32040| := by
  refine ⟨by norm_num, by norm_num, ?_, ?_, ?_⟩
  · norm_num [retroPlayerProcessRates]
  · norm_num [retroPlayerProcessRates, cTrunc]
  · have hc : |(320407 / 10 : ℚ) - 32040| = 7 / 10 := by
      rw [abs_of_pos (by norm_num)]
      norm_num
    rw [hc, abs_sub_lt_iff]
    constructor <;> norm_num

/-- Claim C7 as amended: with a valid frame rate, a core-reported sample
rate with `rate < 1` or `rate > 384000` disables the audio path, playback
continues and the frame rate is unchanged; otherwise the rate is truncated
toward zero to an integer (`static_cast<int>`), and when it was non-integer
the frame rate is scaled by `new_rate / old_rate`. -/
theorem processRates_truncates (clientFrameRate clientSampleRate : ℚ)
    (h5 : 5 ≤ clientFrameRate) (h100 : clientFrameRate ≤ 100) :
    ((clientSampleRate < 1 ∨ clientSampleRate > 384000) →
      retroPlayerProcessRates clientFrameRate clientSampleRate
        = { audioEnabled := false, audioSampleRate := 0
            framerate := clientFrameRate }) ∧
    (1 ≤ clientSampleRate → clientSampleRate ≤ 384000 →
      retroPlayerProcessRates clientFrameRate clientSampleRate
        = { audioEnabled := true
            audioSampleRate := ⌊clientSampleRate⌋
            framerate :=
              if (⌊clientSampleRate⌋ : ℚ) = clientSampleRate then clientFrameRate
              else clientFrameRate * ⌊clientSampleRate⌋ / clientSampleRate }) := by
  have hfr : ¬(clientFrameRate < 5 ∨ clientFrameRate > 100) := by
    push_neg
    exact ⟨h5, h100⟩
  constructor
  · intro hout
    rw [retroPlayerProcessRates]
    simp only [hfr, if_false, ite_false]
    rw [if_pos hout]
  · intro hlo hhi
    have hin : ¬(clientSampleRate < 1 ∨ clientSampleRate > 384000) := by
      push_neg
      exact ⟨hlo, hhi⟩
    have htr : cTrunc clientSampleRate = ⌊clientSampleRate⌋ := by
      rw [cTrunc, if_neg (not_lt.mpr (by linarith))]
    rw [retroPlayerProcessRates]
    simp only [hfr, ite_false]
    rw [if_neg hin, htr]
    by_cases hint : (⌊clientSampleRate⌋ : ℚ) = clientSampleRate
    · rw [if_neg (by simpa using hint.symm ▸ (by simp [hint]) : ¬((⌊clientSampleRate⌋ : ℚ) ≠ clientSampleRate)), if_pos hint]
    · rw [if_pos hint, if_neg hint]

/-- Witness for the amended claim C7 at frame rate 60 and sample rate
32040.5. -/
theorem processRates_truncates_witness :
    (((64081 / 2 : ℚ) < 1 ∨ (64081 / 2 : ℚ) > 384000) →
      retroPlayerProcessRates 60 (64081 / 2)
        = { audioEnabled := false, audioSampleRate := 0, framerate := 60 }) ∧
    (1 ≤ (64081 / 2 : ℚ) → (64081 / 2 : ℚ) ≤ 384000 →
      retroPlayerProcessRates 60 (64081 / 2)
        = { audioEnabled := true
            audioSampleRate := ⌊(64081 / 2 : ℚ)⌋
            framerate :=
              if ((⌊(64081 / 2 : ℚ)⌋ : ℚ) = 64081 / 2) then 60
              else 60 * ⌊(64081 / 2 : ℚ)⌋ / (64081 / 2) }) :=
  processRates_truncates 60 (64081 / 2) (by norm_num) (by norm_num)

/-- Claim C8 (code bug): the environment callback's null-payload guard
exempts `GET_SYSTEM_DIRECTORY`, whose handler then unconditionally writes
`*data = NULL` — so a `GET_SYSTEM_DIRECTORY` query with a null payload
dereferences the null pointer (modelled as `none`) instead of returning
false without side effects.  For contrast, every other payload-taking query
with a null payload does return false without side effects (shown here for
`GET_VARIABLE`), and `SHUTDOWN` legitimately ignores the payload. -/
theorem environmentCallback_sysdir_null_deref :
    EnvironmentCallback RETRO_ENVIRONMENT_GET_SYSTEM_DIRECTORY none = none ∧
    EnvironmentCallback RETRO_ENVIRONMENT_GET_VARIABLE none
      = some { ret := false, effects := [] } ∧
    EnvironmentCallback RETRO_ENVIRONMENT_SHUTDOWN none
      = some { ret := true, effects := [EnvEffect.requestStop] } :=
  ⟨by decide, by decide, by decide⟩
